import Mathlib

/-!
Shallow embedding of the PR Reviewer Assignment Service
(src/app/main.py and src/app/db.py).

The in-memory database (`users_by_id`, `prs_by_id`, `teams_exist`) is
modelled as a record of insertion-ordered association lists (Python dicts
iterate in insertion order; assignment to an existing key keeps its
position, assignment to a fresh key appends).  The random sources
(`random.shuffle` in `create_pull_request`, `random.choice` in
`reassign_reviewer`) are modelled as oracle parameters; theorems that need
them assume only what the Python library guarantees (the shuffle is a
permutation, the choice is a member of a nonempty list).  `datetime.utcnow`
is modelled as a `Nat` parameter.
-/

namespace PRService

/-- Error codes of the service (class ErrorCode in src/app/db.py). -/
inductive ErrorCode where
  | TEAM_EXISTS
  | PR_EXISTS
  | PR_MERGED
  | NOT_ASSIGNED
  | NO_CANDIDATE
  | NOT_FOUND
deriving DecidableEq, Repr

/-- class TeamMember in src/app/db.py. -/
structure TeamMember where
  user_id : String
  username : String
  is_active : Bool
deriving DecidableEq, Repr

/-- class Team in src/app/db.py. -/
structure Team where
  team_name : String
  members : List TeamMember
deriving DecidableEq, Repr

/-- class User in src/app/db.py. -/
structure User where
  user_id : String
  username : String
  team_name : String
  is_active : Bool
deriving DecidableEq, Repr

/-- class PRStatus in src/app/db.py. -/
inductive PRStatus where
  | OPEN
  | MERGED
deriving DecidableEq, Repr

/-- class PullRequest in src/app/db.py; datetimes are modelled as Nat. -/
structure PullRequest where
  pull_request_id : String
  pull_request_name : String
  author_id : String
  status : PRStatus
  assigned_reviewers : List String
  createdAt : Option Nat := none
  mergedAt : Option Nat := none
deriving DecidableEq, Repr

/-- class PullRequestShort in src/app/db.py. -/
structure PullRequestShort where
  pull_request_id : String
  pull_request_name : String
  author_id : String
  status : PRStatus
deriving DecidableEq, Repr

/-- Lookup in a Python dict modelled as an association list: the value at
the first matching key. -/
def dictGet (d : List (String × α)) (k : String) : Option α :=
  match d with
  | [] => none
  | (k1, v) :: rest => if k1 = k then some v else dictGet rest k

/-- Overwrite the value stored at key `k` (all entries with that key),
keeping its position — Python `d[k] = v` when `k` is already present. -/
def dictSet (d : List (String × α)) (k : String) (v : α) : List (String × α) :=
  d.map (fun p => if p.1 = k then (k, v) else p)

/-- Python `d[k] = v`: overwrite in place if the key is present, append
otherwise. -/
def dictInsert (d : List (String × α)) (k : String) (v : α) : List (String × α) :=
  if (dictGet d k).isSome then dictSet d k v else d ++ [(k, v)]

/-- Python `d.values()` in iteration (insertion) order. -/
def dictValues (d : List (String × α)) : List α :=
  d.map Prod.snd

/-- Python `s.add(x)` on a set modelled as a duplicate-free list. -/
def setAdd (s : List String) (x : String) : List String :=
  if x ∈ s then s else s ++ [x]

/-- The global in-memory state of src/app/main.py: `users_by_id`,
`prs_by_id` and `teams_exist`. -/
structure Store where
  users_by_id : List (String × User)
  prs_by_id : List (String × PullRequest)
  teams_exist : List String
deriving DecidableEq, Repr

/-- The initial (empty) state of the service. -/
def Store.empty : Store := ⟨[], [], []⟩

/-- POST /team/add (add_team in src/app/main.py): register a team and
upsert its members. -/
def add_team (team : Team) (s : Store) : Except ErrorCode Team × Store :=
  if team.team_name ∈ s.teams_exist then
    (.error .TEAM_EXISTS, s)
  else
    let teams1 := setAdd s.teams_exist team.team_name
    let users1 := team.members.foldl (fun us m =>
      match dictGet us m.user_id with
      | some existing =>
          dictInsert us m.user_id
            { existing with
                username := m.username
                team_name := team.team_name
                is_active := m.is_active }
      | none =>
          dictInsert us m.user_id
            { user_id := m.user_id
              username := m.username
              team_name := team.team_name
              is_active := m.is_active }) s.users_by_id
    (.ok team, { s with teams_exist := teams1, users_by_id := users1 })

/-- GET /team/get (get_team in src/app/main.py): derived scan of users by
team name. -/
def get_team (team_name : String) (s : Store) : Except ErrorCode Team × Store :=
  if team_name ∈ s.teams_exist then
    (.ok { team_name := team_name
           members := ((dictValues s.users_by_id).filter
               (fun u => u.team_name == team_name)).map
             (fun u => { user_id := u.user_id
                         username := u.username
                         is_active := u.is_active }) }, s)
  else
    (.error .NOT_FOUND, s)

/-- POST /users/setIsActive (set_is_active in src/app/main.py). -/
def set_is_active (user_id : String) (is_active : Bool) (s : Store) :
    Except ErrorCode User × Store :=
  match dictGet s.users_by_id user_id with
  | none => (.error .NOT_FOUND, s)
  | some user =>
    let user1 := { user with is_active := is_active }
    (.ok user1, { s with users_by_id := dictInsert s.users_by_id user_id user1 })

/-- The candidate pool computed by create_pull_request (src/app/main.py
lines 145-152): active users of the author's team other than the author. -/
def createCandidates (s : Store) (author : User) : List String :=
  ((dictValues s.users_by_id).filter (fun u =>
      u.team_name == author.team_name && u.user_id != author.user_id &&
        u.is_active)).map (fun u => u.user_id)

/-- POST /pullRequest/create (create_pull_request in src/app/main.py).
`shuffle` stands for `random.shuffle`, `now` for `datetime.utcnow()`. -/
def create_pull_request (shuffle : List String → List String) (now : Nat)
    (pull_request_id pull_request_name author_id : String) (s : Store) :
    Except ErrorCode PullRequest × Store :=
  if (dictGet s.prs_by_id pull_request_id).isSome then
    (.error .PR_EXISTS, s)
  else
    match dictGet s.users_by_id author_id with
    | none => (.error .NOT_FOUND, s)
    | some author =>
      if author.team_name ∈ s.teams_exist then
        let assigned_reviewers := (shuffle (createCandidates s author)).take 2
        let pr : PullRequest :=
          { pull_request_id := pull_request_id
            pull_request_name := pull_request_name
            author_id := author.user_id
            status := .OPEN
            assigned_reviewers := assigned_reviewers
            createdAt := some now
            mergedAt := none }
        (.ok pr, { s with prs_by_id := dictInsert s.prs_by_id pull_request_id pr })
      else
        (.error .NOT_FOUND, s)

/-- POST /pullRequest/merge (merge_pull_request in src/app/main.py).
`now` stands for `datetime.utcnow()`. -/
def merge_pull_request (now : Nat) (pull_request_id : String) (s : Store) :
    Except ErrorCode PullRequest × Store :=
  match dictGet s.prs_by_id pull_request_id with
  | none => (.error .NOT_FOUND, s)
  | some pr =>
    if pr.status = .MERGED then
      (.ok pr, s)
    else
      let pr1 := { pr with status := .MERGED, mergedAt := some now }
      (.ok pr1, { s with prs_by_id := dictInsert s.prs_by_id pull_request_id pr1 })

/-- The replacement candidate pool computed by reassign_reviewer
(src/app/main.py lines 213-221): active users of old_user's team, not
old_user, not already assigned.  Note: the PR's author is NOT excluded. -/
def reassignCandidates (s : Store) (old_user : User) (old_user_id : String)
    (pr : PullRequest) : List String :=
  ((dictValues s.users_by_id).filter (fun u =>
      u.team_name == old_user.team_name && u.user_id != old_user_id &&
        u.is_active && !(pr.assigned_reviewers.contains u.user_id))).map
    (fun u => u.user_id)

/-- POST /pullRequest/reassign (reassign_reviewer in src/app/main.py).
`choose` stands for `random.choice`. -/
def reassign_reviewer (choose : List String → String)
    (pull_request_id old_user_id : String) (s : Store) :
    Except ErrorCode (PullRequest × String) × Store :=
  match dictGet s.prs_by_id pull_request_id with
  | none => (.error .NOT_FOUND, s)
  | some pr =>
    match dictGet s.users_by_id old_user_id with
    | none => (.error .NOT_FOUND, s)
    | some old_user =>
      if pr.status = .MERGED then
        (.error .PR_MERGED, s)
      else if old_user_id ∈ pr.assigned_reviewers then
        let candidates := reassignCandidates s old_user old_user_id pr
        if candidates = [] then
          (.error .NO_CANDIDATE, s)
        else
          let new_user_id := choose candidates
          let new_reviewers := pr.assigned_reviewers.map
            (fun r => if r = old_user_id then new_user_id else r)
          let pr1 := { pr with assigned_reviewers := new_reviewers }
          (.ok (pr1, new_user_id),
           { s with prs_by_id := dictInsert s.prs_by_id pull_request_id pr1 })
      else
        (.error .NOT_ASSIGNED, s)

/-- Projection of a PullRequest used by get_user_reviews. -/
def shortOfPR (pr : PullRequest) : PullRequestShort :=
  { pull_request_id := pr.pull_request_id
    pull_request_name := pr.pull_request_name
    author_id := pr.author_id
    status := pr.status }

/-- The list built by get_user_reviews (src/app/main.py lines 250-261). -/
def userReviewsList (user_id : String) (s : Store) : List PullRequestShort :=
  ((dictValues s.prs_by_id).filter
      (fun pr => pr.assigned_reviewers.contains user_id)).map shortOfPR

/-- GET /users/getReview (get_user_reviews in src/app/main.py). -/
def get_user_reviews (user_id : String) (s : Store) :
    Except ErrorCode (String × List PullRequestShort) × Store :=
  if (dictGet s.users_by_id user_id).isSome then
    (.ok (user_id, userReviewsList user_id s), s)
  else
    (.error .NOT_FOUND, s)

/-- States reachable from the empty store by the service's operations,
with arbitrary random oracles and clock values. -/
inductive Reachable : Store → Prop where
  | init : Reachable Store.empty
  | step_add_team (t : Team) {s : Store} :
      Reachable s → Reachable (add_team t s).2
  | step_get_team (tn : String) {s : Store} :
      Reachable s → Reachable (get_team tn s).2
  | step_set_is_active (uid : String) (b : Bool) {s : Store} :
      Reachable s → Reachable (set_is_active uid b s).2
  | step_create (shuffle : List String → List String) (now : Nat)
      (pid name aid : String) {s : Store} :
      Reachable s → Reachable (create_pull_request shuffle now pid name aid s).2
  | step_merge (now : Nat) (pid : String) {s : Store} :
      Reachable s → Reachable (merge_pull_request now pid s).2
  | step_reassign (choose : List String → String) (pid uid : String) {s : Store} :
      Reachable s → Reachable (reassign_reviewer choose pid uid s).2
  | step_get_user_reviews (uid : String) {s : Store} :
      Reachable s → Reachable (get_user_reviews uid s).2

def w7pr : PullRequest :=
  { pull_request_id := "pr1", pull_request_name := "x", author_id := "ghost"
    status := .OPEN, assigned_reviewers := [] }

def w7store : Store := ⟨[], [("pr1", w7pr)], []⟩

/-- True exactly on the success constructor of a service result. -/
def exceptOk {α : Type} (e : Except ErrorCode α) : Bool :=
  match e with
  | .ok _ => true
  | .error _ => false

def w9user : User := ⟨"u1", "n1", "A", true⟩

def w9store : Store :=
  ⟨[("u1", w9user), ("u2", ⟨"u2", "n2", "A", true⟩)], [], ["A"]⟩

def w3pr : PullRequest :=
  { pull_request_id := "pr1", pull_request_name := "x", author_id := "a"
    status := .MERGED, assigned_reviewers := ["b"]
    createdAt := some 0, mergedAt := some 1 }

def w3store : Store := ⟨[], [("pr1", w3pr)], []⟩

def w2pr0 : PullRequest :=
  { pull_request_id := "pr1", pull_request_name := "x", author_id := "a"
    status := .OPEN, assigned_reviewers := ["b"]
    createdAt := some 0, mergedAt := none }

def w2store : Store :=
  ⟨[("b", ⟨"b", "nb", "A", true⟩), ("c", ⟨"c", "nc", "A", true⟩)],
   [("pr1", w2pr0)], ["A"]⟩

def w2pr1 : PullRequest :=
  { pull_request_id := "pr1", pull_request_name := "x", author_id := "a"
    status := .OPEN, assigned_reviewers := ["c"]
    createdAt := some 0, mergedAt := none }

def w4author : User := ⟨"u1", "n1", "A", true⟩

def w4store : Store :=
  ⟨[("u1", w4author), ("u2", ⟨"u2", "n2", "A", true⟩),
    ("u3", ⟨"u3", "n3", "A", false⟩)], [], ["A"]⟩

def w10store : Store :=
  (merge_pull_request 7 "pr1"
    (create_pull_request (fun l => l) 0 "pr1" "x" "u1"
      (add_team ⟨"A", [⟨"u1", "n1", true⟩, ⟨"u2", "n2", true⟩]⟩ Store.empty).2).2).2

def w10pr : PullRequest :=
  { pull_request_id := "pr1", pull_request_name := "x", author_id := "u1"
    status := .MERGED, assigned_reviewers := ["u2"]
    createdAt := some 0, mergedAt := some 7 }

def bugTeam : Team := ⟨"A", [⟨"u1", "n1", true⟩, ⟨"u2", "n2", true⟩]⟩

def bugStore : Store :=
  (create_pull_request (fun l => l) 0 "pr1" "x" "u1"
    (add_team bugTeam Store.empty).2).2

theorem dictGet_mem {α : Type} {d : List (String × α)} {k : String} {v : α}
    (h : dictGet d k = some v) : (k, v) ∈ d := by
  induction d with
  | nil => simp [dictGet] at h
  | cons p rest ih =>
    rw [dictGet] at h
    by_cases hk : p.1 = k
    · simp only [if_pos hk, Option.some.injEq] at h
      rw [List.mem_cons]
      left
      obtain ⟨a, b⟩ := p
      simp only at hk h
      rw [hk, h]
    · rw [if_neg hk] at h
      exact List.mem_cons_of_mem _ (ih h)

theorem mem_dictSet {α : Type} {d : List (String × α)} {k : String} {v : α}
    {p : String × α} (h : p ∈ dictSet d k v) : p ∈ d ∨ p = (k, v) := by
  simp only [dictSet, List.mem_map] at h
  obtain ⟨q, hq, hqe⟩ := h
  by_cases hk : q.1 = k
  · rw [if_pos hk] at hqe
    exact Or.inr hqe.symm
  · rw [if_neg hk] at hqe
    exact Or.inl (hqe ▸ hq)

theorem mem_dictInsert {α : Type} {d : List (String × α)} {k : String} {v : α}
    {p : String × α} (h : p ∈ dictInsert d k v) : p ∈ d ∨ p = (k, v) := by
  rw [dictInsert] at h
  by_cases hs : (dictGet d k).isSome
  · rw [if_pos hs] at h
    exact mem_dictSet h
  · rw [if_neg hs] at h
    rcases List.mem_append.mp h with h1 | h1
    · exact Or.inl h1
    · exact Or.inr (by simpa using h1)

theorem dictGet_dictSet_self {α : Type} {d : List (String × α)} {k : String}
    {v : α} (h : (dictGet d k).isSome = true) :
    dictGet (dictSet d k v) k = some v := by
  induction d with
  | nil => simp [dictGet] at h
  | cons p rest ih =>
    rw [dictGet] at h
    simp only [dictSet, List.map_cons]
    by_cases hk : p.1 = k
    · rw [if_pos hk]
      simp [dictGet]
    · rw [if_neg hk] at h
      rw [if_neg hk, dictGet, if_neg hk]
      exact ih h

theorem dictGet_dictSet_ne {α : Type} {d : List (String × α)} {k k1 : String}
    {v : α} (h : k1 ≠ k) : dictGet (dictSet d k v) k1 = dictGet d k1 := by
  induction d with
  | nil => simp [dictSet, dictGet]
  | cons p rest ih =>
    simp only [dictSet, List.map_cons]
    by_cases hk : p.1 = k
    · rw [if_pos hk, dictGet, dictGet]
      have h1 : ¬((k, v).1 = k1) := fun hh => h (hh.symm)
      have h2 : ¬(p.1 = k1) := by rw [hk]; exact fun hh => h hh.symm
      rw [if_neg h1, if_neg h2]
      exact ih
    · rw [if_neg hk, dictGet, dictGet]
      by_cases hk1 : p.1 = k1
      · rw [if_pos hk1, if_pos hk1]
      · rw [if_neg hk1, if_neg hk1]
        exact ih

theorem dictInsert_isSome {α : Type} {d : List (String × α)} {k : String}
    {v : α} (h : (dictGet d k).isSome = true) :
    dictInsert d k v = dictSet d k v := by
  simp [dictInsert, h]

theorem mem_createCandidates {s : Store} {author : User} {x : String} :
    x ∈ createCandidates s author ↔
      ∃ u ∈ dictValues s.users_by_id,
        u.user_id = x ∧ u.team_name = author.team_name ∧
          x ≠ author.user_id ∧ u.is_active = true := by
  simp only [createCandidates, List.mem_map, List.mem_filter,
    Bool.and_eq_true, beq_iff_eq, bne_iff_ne, ne_eq]
  constructor
  · rintro ⟨u, ⟨hu, ⟨ht, hne⟩, ha⟩, rfl⟩
    exact ⟨u, hu, rfl, ht, hne, ha⟩
  · rintro ⟨u, hu, rfl, ht, hne, ha⟩
    exact ⟨u, ⟨hu, ⟨ht, hne⟩, ha⟩, rfl⟩

theorem mem_reassignCandidates {s : Store} {old_user : User}
    {old_user_id : String} {pr : PullRequest} {x : String} :
    x ∈ reassignCandidates s old_user old_user_id pr ↔
      ∃ u ∈ dictValues s.users_by_id,
        u.user_id = x ∧ u.team_name = old_user.team_name ∧
          x ≠ old_user_id ∧ u.is_active = true ∧
          x ∉ pr.assigned_reviewers := by
  simp only [reassignCandidates, List.mem_map, List.mem_filter,
    Bool.and_eq_true, beq_iff_eq, bne_iff_ne, ne_eq, Bool.not_eq_true',
    decide_eq_false_iff_not]
  constructor
  · rintro ⟨u, ⟨hu, ⟨⟨ht, hne⟩, ha⟩, hc⟩, rfl⟩
    exact ⟨u, hu, rfl, ht, hne, ha, by simpa using hc⟩
  · rintro ⟨u, hu, rfl, ht, hne, ha, hc⟩
    exact ⟨u, ⟨hu, ⟨⟨ht, hne⟩, ha⟩, by simpa using hc⟩, rfl⟩

/-- C7: if pull_request_id is already present, create fails with PR_EXISTS
for every pr_name and author_id (the duplicate-id check precedes all other
validation), and the store is unchanged. -/
theorem create_duplicate_pr_exists (shuffle : List String → List String)
    (now : Nat) (pid name aid : String) (s : Store)
    (h : (dictGet s.prs_by_id pid).isSome = true) :
    create_pull_request shuffle now pid name aid s = (.error .PR_EXISTS, s) := by
  simp [create_pull_request, h]

/-- Witness for C7: duplicate id with an unknown author still gives PR_EXISTS. -/
theorem create_duplicate_pr_exists_witness :
    create_pull_request (fun l => l) 0 "pr1" "y" "nobody" w7store =
      (.error .PR_EXISTS, w7store) :=
  create_duplicate_pr_exists (fun l => l) 0 "pr1" "y" "nobody" w7store rfl

/-- C6: every operation either leaves the store exactly as it was or
succeeds — so whenever an operation returns an error, no mutation at all
has happened. -/
theorem ops_error_preserves_store :
    (∀ (t : Team) (s : Store),
       (add_team t s).2 = s ∨ exceptOk (add_team t s).1 = true) ∧
    (∀ (tn : String) (s : Store), (get_team tn s).2 = s) ∧
    (∀ (uid : String) (b : Bool) (s : Store),
       (set_is_active uid b s).2 = s ∨ exceptOk (set_is_active uid b s).1 = true) ∧
    (∀ (sh : List String → List String) (now : Nat) (pid name aid : String)
       (s : Store),
       (create_pull_request sh now pid name aid s).2 = s ∨
         exceptOk (create_pull_request sh now pid name aid s).1 = true) ∧
    (∀ (now : Nat) (pid : String) (s : Store),
       (merge_pull_request now pid s).2 = s ∨
         exceptOk (merge_pull_request now pid s).1 = true) ∧
    (∀ (ch : List String → String) (pid uid : String) (s : Store),
       (reassign_reviewer ch pid uid s).2 = s ∨
         exceptOk (reassign_reviewer ch pid uid s).1 = true) ∧
    (∀ (uid : String) (s : Store), (get_user_reviews uid s).2 = s) := by
  refine ⟨?_, ?_, ?_, ?_, ?_, ?_, ?_⟩
  · intro t s
    unfold add_team
    repeat' split
    all_goals first | (left; rfl) | (right; rfl)
  · intro tn s
    unfold get_team
    repeat' split
    all_goals rfl
  · intro uid b s
    unfold set_is_active
    repeat' split
    all_goals first | (left; rfl) | (right; rfl)
  · intro sh now pid name aid s
    unfold create_pull_request
    repeat' split
    all_goals first | (left; rfl) | (right; rfl)
  · intro now pid s
    unfold merge_pull_request
    repeat' split
    all_goals first | (left; rfl) | (right; rfl)
  · intro ch pid uid s
    unfold reassign_reviewer
    dsimp only
    repeat' split
    all_goals first | (left; rfl) | (right; rfl)
  · intro uid s
    unfold get_user_reviews
    repeat' split
    all_goals rfl

/-- C9: setIsActive on a known user changes only that user's is_active
field — the PRs, the registered teams, every other user, and the user's
other fields are untouched. -/
theorem set_is_active_frame (uid : String) (b : Bool) (s : Store) (u : User)
    (h : dictGet s.users_by_id uid = some u) :
    (set_is_active uid b s).1 = .ok { u with is_active := b } ∧
    (set_is_active uid b s).2.prs_by_id = s.prs_by_id ∧
    (set_is_active uid b s).2.teams_exist = s.teams_exist ∧
    dictGet (set_is_active uid b s).2.users_by_id uid =
      some { u with is_active := b } ∧
    ∀ k, k ≠ uid →
      dictGet (set_is_active uid b s).2.users_by_id k = dictGet s.users_by_id k := by
  have hsome : (dictGet s.users_by_id uid).isSome = true := by rw [h]; rfl
  have hstore : set_is_active uid b s =
      (.ok { u with is_active := b },
       { s with users_by_id :=
           dictInsert s.users_by_id uid { u with is_active := b } }) := by
    simp [set_is_active, h]
  rw [hstore]
  refine ⟨rfl, rfl, rfl, ?_, ?_⟩
  · show dictGet (dictInsert s.users_by_id uid { u with is_active := b }) uid = _
    rw [dictInsert_isSome hsome]
    exact dictGet_dictSet_self hsome
  · intro k hk
    show dictGet (dictInsert s.users_by_id uid { u with is_active := b }) k = _
    rw [dictInsert_isSome hsome]
    exact dictGet_dictSet_ne hk

/-- Witness for C9 at a concrete two-user store. -/
theorem set_is_active_frame_witness :
    (set_is_active "u1" false w9store).1 = .ok { w9user with is_active := false } ∧
    (set_is_active "u1" false w9store).2.prs_by_id = w9store.prs_by_id ∧
    (set_is_active "u1" false w9store).2.teams_exist = w9store.teams_exist ∧
    dictGet (set_is_active "u1" false w9store).2.users_by_id "u1" =
      some { w9user with is_active := false } ∧
    ∀ k, k ≠ "u1" →
      dictGet (set_is_active "u1" false w9store).2.users_by_id k =
        dictGet w9store.users_by_id k :=
  set_is_active_frame "u1" false w9store w9user rfl

/-- C3: merging a stored OPEN PR succeeds, sets status MERGED and a
non-null merged_at; merging a stored MERGED PR succeeds, returns the
stored PR unchanged and leaves the store unchanged. -/
theorem merge_idempotent (now : Nat) (pid : String) (s : Store)
    (pr0 : PullRequest) (hpr : dictGet s.prs_by_id pid = some pr0) :
    (pr0.status = .OPEN ∧
       (merge_pull_request now pid s).1 =
         .ok { pr0 with status := .MERGED, mergedAt := some now } ∧
       dictGet (merge_pull_request now pid s).2.prs_by_id pid =
         some { pr0 with status := .MERGED, mergedAt := some now }) ∨
    (pr0.status = .MERGED ∧
       (merge_pull_request now pid s).1 = .ok pr0 ∧
       (merge_pull_request now pid s).2 = s) := by
  have hsome : (dictGet s.prs_by_id pid).isSome = true := by rw [hpr]; rfl
  cases hst : pr0.status with
  | MERGED =>
    right
    exact ⟨rfl, by simp [merge_pull_request, hpr, hst], by simp [merge_pull_request, hpr, hst]⟩
  | OPEN =>
    left
    refine ⟨rfl, ?_, ?_⟩
    · simp [merge_pull_request, hpr, hst]
    · simp only [merge_pull_request, hpr, hst]
      have : ¬ PRStatus.OPEN = PRStatus.MERGED := by intro hh; cases hh
      rw [if_neg this]
      show dictGet (dictInsert s.prs_by_id pid _) pid = _
      rw [dictInsert_isSome hsome]
      exact dictGet_dictSet_self hsome

/-- Witness for C3: re-merging an already MERGED PR is an idempotent
success. -/
theorem merge_idempotent_witness :
    (w3pr.status = .OPEN ∧
       (merge_pull_request 5 "pr1" w3store).1 =
         .ok { w3pr with status := .MERGED, mergedAt := some 5 } ∧
       dictGet (merge_pull_request 5 "pr1" w3store).2.prs_by_id "pr1" =
         some { w3pr with status := .MERGED, mergedAt := some 5 }) ∨
    (w3pr.status = .MERGED ∧
       (merge_pull_request 5 "pr1" w3store).1 = .ok w3pr ∧
       (merge_pull_request 5 "pr1" w3store).2 = w3store) :=
  merge_idempotent 5 "pr1" w3store w3pr rfl

/-- C8: getUserReviews fails NOT_FOUND exactly when the user is unknown;
for a known user it returns exactly the stored PRs whose
assigned_reviewers contain the user, projected to PullRequestShort. -/
theorem get_user_reviews_spec (uid : String) (s : Store) :
    (dictGet s.users_by_id uid = none ∧
       (get_user_reviews uid s).1 = .error .NOT_FOUND) ∨
    ((dictGet s.users_by_id uid).isSome = true ∧
       (get_user_reviews uid s).1 = .ok (uid, userReviewsList uid s) ∧
       ∀ sh, sh ∈ userReviewsList uid s ↔
         ∃ pr ∈ dictValues s.prs_by_id,
           uid ∈ pr.assigned_reviewers ∧ sh = shortOfPR pr) := by
  cases hu : dictGet s.users_by_id uid with
  | none => exact Or.inl ⟨rfl, by simp [get_user_reviews, hu]⟩
  | some u =>
    right
    have hsome : (dictGet s.users_by_id uid).isSome = true := by rw [hu]; rfl
    refine ⟨rfl, by simp [get_user_reviews, hsome], ?_⟩
    intro sh
    simp only [userReviewsList, List.mem_map, List.mem_filter]
    constructor
    · rintro ⟨pr, ⟨hpr, hc⟩, rfl⟩
      exact ⟨pr, hpr, by simpa using hc, rfl⟩
    · rintro ⟨pr, hpr, hc, rfl⟩
      exact ⟨pr, ⟨hpr, by simpa using hc⟩, rfl⟩

theorem headD_mem : ∀ (l : List String), l ≠ [] → l.headD "" ∈ l := by
  intro l hl
  cases l with
  | nil => exact absurd rfl hl
  | cons a t => exact List.mem_cons_self a t

/-- C2: a successful reassign removes old_user_id, inserts the returned
replacement, keeps the length, introduces no duplicates, and keeps every
other reviewer at its position. -/
theorem reassign_success_post (choose : List String → String)
    (hch : ∀ l : List String, l ≠ [] → choose l ∈ l)
    (pid uid : String) (s : Store) (pr0 : PullRequest)
    (hpr : dictGet s.prs_by_id pid = some pr0)
    (hnd : pr0.assigned_reviewers.Nodup)
    (pr1 : PullRequest) (nu : String)
    (h : (reassign_reviewer choose pid uid s).1 = .ok (pr1, nu)) :
    uid ∉ pr1.assigned_reviewers ∧
    nu ∈ pr1.assigned_reviewers ∧
    pr1.assigned_reviewers.length = pr0.assigned_reviewers.length ∧
    pr1.assigned_reviewers.Nodup ∧
    ∀ (i : Nat) (h1 : i < pr0.assigned_reviewers.length)
      (h2 : i < pr1.assigned_reviewers.length),
      pr0.assigned_reviewers.get ⟨i, h1⟩ ≠ uid →
      pr1.assigned_reviewers.get ⟨i, h2⟩ = pr0.assigned_reviewers.get ⟨i, h1⟩ := by
  cases hou : dictGet s.users_by_id uid with
  | none => simp [reassign_reviewer, hpr, hou] at h
  | some ou =>
    by_cases hm : pr0.status = PRStatus.MERGED
    · simp [reassign_reviewer, hpr, hou, hm] at h
    · by_cases ha : uid ∈ pr0.assigned_reviewers
      · by_cases hc : reassignCandidates s ou uid pr0 = []
        · simp [reassign_reviewer, hpr, hou, hm, ha, hc] at h
        · simp only [reassign_reviewer, hpr, hou, if_neg hm, if_pos ha,
            if_neg hc] at h
          rw [Except.ok.injEq, Prod.mk.injEq] at h
          obtain ⟨hpr1, hnu⟩ := h
          subst hpr1
          subst hnu
          have hmem : choose (reassignCandidates s ou uid pr0) ∈
              reassignCandidates s ou uid pr0 := hch _ hc
          obtain ⟨u, hu, hid, ht, hneq, hact, hnotin⟩ :=
            mem_reassignCandidates.mp hmem
          refine ⟨?_, ?_, ?_, ?_, ?_⟩
          · dsimp only
            intro hmem2
            obtain ⟨r, hr, hfr⟩ := List.mem_map.mp hmem2
            by_cases hru : r = uid
            · rw [if_pos hru] at hfr
              exact hneq hfr
            · rw [if_neg hru] at hfr
              exact hru hfr
          · dsimp only
            exact List.mem_map.mpr ⟨uid, ha, by simp⟩
          · dsimp only
            exact List.length_map _ _
          · dsimp only
            refine List.Nodup.map_on ?_ hnd
            intro x hx y hy hxy
            by_cases hxu : x = uid <;> by_cases hyu : y = uid
            · rw [hxu, hyu]
            · rw [if_pos hxu, if_neg hyu] at hxy
              rw [← hxy] at hy
              exact absurd hy hnotin
            · rw [if_neg hxu, if_pos hyu] at hxy
              rw [hxy] at hx
              exact absurd hx hnotin
            · rw [if_neg hxu, if_neg hyu] at hxy
              exact hxy
          · intro i h1 h2 hne2
            dsimp only at h2 ⊢
            simp only [List.get_eq_getElem] at hne2 ⊢
            rw [List.getElem_map]
            rw [if_neg hne2]
      · simp [reassign_reviewer, hpr, hou, hm, ha] at h

/-- Witness for C2 at a concrete store where reviewer b is replaced by c. -/
theorem reassign_success_post_witness :
    "b" ∉ w2pr1.assigned_reviewers ∧
    "c" ∈ w2pr1.assigned_reviewers ∧
    w2pr1.assigned_reviewers.length = w2pr0.assigned_reviewers.length ∧
    w2pr1.assigned_reviewers.Nodup ∧
    ∀ (i : Nat) (h1 : i < w2pr0.assigned_reviewers.length)
      (h2 : i < w2pr1.assigned_reviewers.length),
      w2pr0.assigned_reviewers.get ⟨i, h1⟩ ≠ "b" →
      w2pr1.assigned_reviewers.get ⟨i, h2⟩ = w2pr0.assigned_reviewers.get ⟨i, h1⟩ :=
  reassign_success_post (fun l => l.headD "") headD_mem "pr1" "b" w2store w2pr0
    rfl (by decide) w2pr1 "c" rfl

/-- C4: a create that passes validation succeeds, assigns at most 2
distinct reviewers (exactly min 2 |pool|, so 0 or 1 when the pool is
small, never an error), never the author, and only active users of the
author's team. -/
theorem create_success_post (shuffle : List String → List String)
    (hsh : ∀ l : List String, (shuffle l).Perm l)
    (now : Nat) (pid name aid : String) (s : Store) (author : User)
    (hkeys : ∀ p ∈ s.users_by_id, (p.2 : User).user_id = p.1)
    (hnodup : (s.users_by_id.map Prod.fst).Nodup)
    (hfresh : dictGet s.prs_by_id pid = none)
    (hauth : dictGet s.users_by_id aid = some author)
    (hteam : author.team_name ∈ s.teams_exist) :
    ∃ pr : PullRequest,
      (create_pull_request shuffle now pid name aid s).1 = .ok pr ∧
      pr.author_id = author.user_id ∧
      pr.assigned_reviewers.length = min 2 (createCandidates s author).length ∧
      pr.assigned_reviewers.length ≤ 2 ∧
      pr.assigned_reviewers.Nodup ∧
      author.user_id ∉ pr.assigned_reviewers ∧
      aid ∉ pr.assigned_reviewers ∧
      ∀ r ∈ pr.assigned_reviewers, ∃ u ∈ dictValues s.users_by_id,
        u.user_id = r ∧ u.team_name = author.team_name ∧ u.is_active = true := by
  have hae : author.user_id = aid := hkeys (aid, author) (dictGet_mem hauth)
  have hres : (create_pull_request shuffle now pid name aid s).1 =
      .ok { pull_request_id := pid, pull_request_name := name,
            author_id := author.user_id, status := .OPEN,
            assigned_reviewers := (shuffle (createCandidates s author)).take 2,
            createdAt := some now, mergedAt := none } := by
    simp [create_pull_request, hfresh, hauth, hteam]
  have hcn : (createCandidates s author).Nodup := by
    have hvals : (dictValues s.users_by_id).map (fun u => u.user_id) =
        s.users_by_id.map Prod.fst := by
      rw [dictValues, List.map_map]
      exact List.map_congr_left (fun p hp => hkeys p hp)
    have hsub : List.Sublist (createCandidates s author)
        ((dictValues s.users_by_id).map (fun u => u.user_id)) :=
      (List.filter_sublist _).map _
    rw [hvals] at hsub
    exact hnodup.sublist hsub
  have hsn : ((shuffle (createCandidates s author)).take 2).Nodup :=
    (((hsh _).nodup_iff).mpr hcn).sublist (List.take_sublist _ _)
  have hmem2 : ∀ r ∈ (shuffle (createCandidates s author)).take 2,
      r ∈ createCandidates s author := by
    intro r hr
    exact ((hsh _).mem_iff).mp (List.mem_of_mem_take hr)
  refine ⟨_, hres, rfl, ?_, ?_, hsn, ?_, ?_, ?_⟩
  · dsimp only
    rw [List.length_take, (hsh _).length_eq]
  · dsimp only
    rw [List.length_take]
    exact min_le_left _ _
  · dsimp only
    intro habs
    obtain ⟨u, hu, hid, ht, hne, hact⟩ := mem_createCandidates.mp (hmem2 _ habs)
    exact hne rfl
  · dsimp only
    intro habs
    obtain ⟨u, hu, hid, ht, hne, hact⟩ := mem_createCandidates.mp (hmem2 _ habs)
    exact hne hae.symm
  · dsimp only
    intro r hr
    obtain ⟨u, hu, hid, ht, hne, hact⟩ := mem_createCandidates.mp (hmem2 _ hr)
    exact ⟨u, hu, hid, ht, hact⟩

/-- Witness for C4: with a single eligible active teammate the PR is
created with exactly one reviewer, not an error. -/
theorem create_success_post_witness :
    ∃ pr : PullRequest,
      (create_pull_request (fun l => l) 0 "pr1" "x" "u1" w4store).1 = .ok pr ∧
      pr.author_id = w4author.user_id ∧
      pr.assigned_reviewers.length = min 2 (createCandidates w4store w4author).length ∧
      pr.assigned_reviewers.length ≤ 2 ∧
      pr.assigned_reviewers.Nodup ∧
      w4author.user_id ∉ pr.assigned_reviewers ∧
      "u1" ∉ pr.assigned_reviewers ∧
      ∀ r ∈ pr.assigned_reviewers, ∃ u ∈ dictValues w4store.users_by_id,
        u.user_id = r ∧ u.team_name = w4author.team_name ∧ u.is_active = true :=
  create_success_post (fun l => l) (fun l => List.Perm.refl l) 0 "pr1" "x" "u1"
    w4store w4author (by decide) (by decide) rfl rfl (by decide)

/-- C5: the exact error taxonomy and precedence of reassign: NOT_FOUND
iff the PR or the user is unknown; then PR_MERGED iff the PR is merged;
then NOT_ASSIGNED iff old_user_id is not an assigned reviewer; then
NO_CANDIDATE iff the replacement pool is empty; otherwise success. -/
theorem reassign_error_taxonomy (choose : List String → String)
    (pid uid : String) (s : Store) :
    ((reassign_reviewer choose pid uid s).1 = .error .NOT_FOUND ↔
       dictGet s.prs_by_id pid = none ∨ dictGet s.users_by_id uid = none) ∧
    ((reassign_reviewer choose pid uid s).1 = .error .PR_MERGED ↔
       ∃ pr ou, dictGet s.prs_by_id pid = some pr ∧
         dictGet s.users_by_id uid = some ou ∧ pr.status = .MERGED) ∧
    ((reassign_reviewer choose pid uid s).1 = .error .NOT_ASSIGNED ↔
       ∃ pr ou, dictGet s.prs_by_id pid = some pr ∧
         dictGet s.users_by_id uid = some ou ∧ pr.status ≠ .MERGED ∧
         uid ∉ pr.assigned_reviewers) ∧
    ((reassign_reviewer choose pid uid s).1 = .error .NO_CANDIDATE ↔
       ∃ pr ou, dictGet s.prs_by_id pid = some pr ∧
         dictGet s.users_by_id uid = some ou ∧ pr.status ≠ .MERGED ∧
         uid ∈ pr.assigned_reviewers ∧
         reassignCandidates s ou uid pr = []) ∧
    ((∃ v, (reassign_reviewer choose pid uid s).1 = .ok v) ↔
       ∃ pr ou, dictGet s.prs_by_id pid = some pr ∧
         dictGet s.users_by_id uid = some ou ∧ pr.status ≠ .MERGED ∧
         uid ∈ pr.assigned_reviewers ∧
         reassignCandidates s ou uid pr ≠ []) := by
  cases hpr : dictGet s.prs_by_id pid with
  | none =>
    refine ⟨?_, ?_, ?_, ?_, ?_⟩ <;> simp [reassign_reviewer, hpr]
  | some pr =>
    cases hou : dictGet s.users_by_id uid with
    | none =>
      refine ⟨?_, ?_, ?_, ?_, ?_⟩ <;> simp [reassign_reviewer, hpr, hou]
    | some ou =>
      by_cases hm : pr.status = PRStatus.MERGED
      · refine ⟨?_, ?_, ?_, ?_, ?_⟩ <;> simp [reassign_reviewer, hpr, hou, hm]
      · by_cases ha : uid ∈ pr.assigned_reviewers
        · by_cases hc : reassignCandidates s ou uid pr = []
          · refine ⟨?_, ?_, ?_, ?_, ?_⟩ <;>
              simp [reassign_reviewer, hpr, hou, hm, ha, hc]
          · refine ⟨?_, ?_, ?_, ?_, ?_⟩ <;>
              simp [reassign_reviewer, hpr, hou, hm, ha, hc]
        · refine ⟨?_, ?_, ?_, ?_, ?_⟩ <;>
            simp [reassign_reviewer, hpr, hou, hm, ha]

theorem add_team_prs (t : Team) (s : Store) :
    (add_team t s).2.prs_by_id = s.prs_by_id := by
  unfold add_team
  split <;> rfl

theorem get_team_store (tn : String) (s : Store) : (get_team tn s).2 = s := by
  unfold get_team
  split <;> rfl

theorem set_is_active_prs (uid : String) (b : Bool) (s : Store) :
    (set_is_active uid b s).2.prs_by_id = s.prs_by_id := by
  cases h : dictGet s.users_by_id uid <;> simp [set_is_active, h]

theorem get_user_reviews_store (uid : String) (s : Store) :
    (get_user_reviews uid s).2 = s := by
  unfold get_user_reviews
  split <;> rfl

theorem create_prs_cases (sh : List String → List String) (now : Nat)
    (pid name aid : String) (s : Store) (p : String × PullRequest)
    (hp : p ∈ (create_pull_request sh now pid name aid s).2.prs_by_id) :
    p ∈ s.prs_by_id ∨ (p.2.status = .OPEN ∧ p.2.mergedAt = none) := by
  by_cases h1 : (dictGet s.prs_by_id pid).isSome = true
  · simp [create_pull_request, h1] at hp
    exact Or.inl hp
  · cases h2 : dictGet s.users_by_id aid with
    | none =>
      simp [create_pull_request, h1, h2] at hp
      exact Or.inl hp
    | some author =>
      by_cases h3 : author.team_name ∈ s.teams_exist
      · simp only [create_pull_request, h1, h2, if_pos h3, if_neg h1] at hp
        rcases mem_dictInsert hp with hmem | heq
        · exact Or.inl hmem
        · right
          rw [heq]
          exact ⟨rfl, rfl⟩
      · simp [create_pull_request, h1, h2, h3] at hp
        exact Or.inl hp

theorem merge_prs_cases (now : Nat) (pid : String) (s : Store)
    (p : String × PullRequest)
    (hp : p ∈ (merge_pull_request now pid s).2.prs_by_id) :
    p ∈ s.prs_by_id ∨ (p.2.status = .MERGED ∧ p.2.mergedAt = some now) := by
  cases h : dictGet s.prs_by_id pid with
  | none =>
    simp [merge_pull_request, h] at hp
    exact Or.inl hp
  | some pr =>
    by_cases hm : pr.status = PRStatus.MERGED
    · simp [merge_pull_request, h, hm] at hp
      exact Or.inl hp
    · simp only [merge_pull_request, h, if_neg hm] at hp
      rcases mem_dictInsert hp with hmem | heq
      · exact Or.inl hmem
      · right
        rw [heq]
        exact ⟨rfl, rfl⟩

theorem reassign_prs_cases (ch : List String → String) (pid uid : String)
    (s : Store) (p : String × PullRequest)
    (hp : p ∈ (reassign_reviewer ch pid uid s).2.prs_by_id) :
    p ∈ s.prs_by_id ∨
      ∃ pr0, (pid, pr0) ∈ s.prs_by_id ∧ p.2.status = pr0.status ∧
        p.2.mergedAt = pr0.mergedAt := by
  cases h : dictGet s.prs_by_id pid with
  | none =>
    simp [reassign_reviewer, h] at hp
    exact Or.inl hp
  | some pr =>
    cases hou : dictGet s.users_by_id uid with
    | none =>
      simp [reassign_reviewer, h, hou] at hp
      exact Or.inl hp
    | some ou =>
      by_cases hm : pr.status = PRStatus.MERGED
      · simp [reassign_reviewer, h, hou, hm] at hp
        exact Or.inl hp
      · by_cases ha : uid ∈ pr.assigned_reviewers
        · by_cases hc : reassignCandidates s ou uid pr = []
          · simp [reassign_reviewer, h, hou, hm, ha, hc] at hp
            exact Or.inl hp
          · simp only [reassign_reviewer, h, hou, if_neg hm, if_pos ha,
              if_neg hc] at hp
            rcases mem_dictInsert hp with hmem | heq
            · exact Or.inl hmem
            · right
              exact ⟨pr, dictGet_mem h, by rw [heq], by rw [heq]⟩
        · simp [reassign_reviewer, h, hou, hm, ha] at hp
          exact Or.inl hp

/-- C10: in every reachable store, a stored PR's merged_at is non-null
exactly when its status is MERGED; every operation preserves this. -/
theorem reachable_merged_consistent (s : Store) (h : Reachable s) :
    ∀ p ∈ s.prs_by_id, ((p.2 : PullRequest).mergedAt ≠ none ↔
      (p.2 : PullRequest).status = .MERGED) := by
  induction h with
  | init =>
    intro p hp
    simp [Store.empty] at hp
  | step_add_team t h ih =>
    intro p hp
    rw [add_team_prs] at hp
    exact ih p hp
  | step_get_team tn h ih =>
    intro p hp
    rw [get_team_store] at hp
    exact ih p hp
  | step_set_is_active uid b h ih =>
    intro p hp
    rw [set_is_active_prs] at hp
    exact ih p hp
  | step_create sh now pid name aid h ih =>
    intro p hp
    rcases create_prs_cases sh now pid name aid _ p hp with hmem | ⟨ho, hn⟩
    · exact ih p hmem
    · rw [ho, hn]
      simp
  | step_merge now pid h ih =>
    intro p hp
    rcases merge_prs_cases now pid _ p hp with hmem | ⟨hm, hn⟩
    · exact ih p hmem
    · rw [hm, hn]
      simp
  | step_reassign ch pid uid h ih =>
    intro p hp
    rcases reassign_prs_cases ch pid uid _ p hp with hmem | ⟨pr0, hmem, hst, hmt⟩
    · exact ih p hmem
    · rw [hst, hmt]
      exact ih (pid, pr0) hmem
  | step_get_user_reviews uid h ih =>
    intro p hp
    rw [get_user_reviews_store] at hp
    exact ih p hp

/-- Witness for C10 at a reachable store holding one merged PR. -/
theorem reachable_merged_consistent_witness :
    w10pr.mergedAt ≠ none ↔ w10pr.status = .MERGED :=
  reachable_merged_consistent w10store
    (Reachable.step_merge 7 "pr1"
      (Reachable.step_create (fun l => l) 0 "pr1" "x" "u1"
        (Reachable.step_add_team ⟨"A", [⟨"u1", "n1", true⟩, ⟨"u2", "n2", true⟩]⟩
          Reachable.init)))
    ("pr1", w10pr) (by decide)

/-- C1 fails on the code: in the reachable store bugStore (team A with
active users u1 and u2, PR pr1 authored by u1 with reviewer u2), the
replacement pool of reassign(pr1, u2) is exactly [u1] — the PR's own
author — so any random.choice returns u1, and the resulting stored PR has
its author among assigned_reviewers. -/
theorem reassign_picks_author :
    Reachable bugStore ∧
    (∃ pr, dictGet bugStore.prs_by_id "pr1" = some pr ∧ pr.author_id = "u1" ∧
       ∃ ou, dictGet bugStore.users_by_id "u2" = some ou ∧
         reassignCandidates bugStore ou "u2" pr = ["u1"]) ∧
    (∃ pr1, (reassign_reviewer (fun l => l.headD "") "pr1" "u2" bugStore).1 =
        .ok (pr1, "u1") ∧
      pr1.author_id = "u1" ∧ "u1" ∈ pr1.assigned_reviewers ∧
      dictGet (reassign_reviewer (fun l => l.headD "") "pr1" "u2" bugStore).2.prs_by_id
          "pr1" = some pr1) := by
  refine ⟨?_, ?_, ?_⟩
  · exact Reachable.step_create (fun l => l) 0 "pr1" "x" "u1"
      (Reachable.step_add_team bugTeam Reachable.init)
  · exact ⟨⟨"pr1", "x", "u1", .OPEN, ["u2"], some 0, none⟩, rfl, rfl,
      ⟨⟨"u2", "n2", "A", true⟩, rfl, rfl⟩⟩
  · exact ⟨⟨"pr1", "x", "u1", .OPEN, ["u1"], some 0, none⟩, rfl, rfl,
      by decide, rfl⟩

end PRService
